import Mathlib

/-!
Shallow embedding of the backup synchronization and retention engine of the
`sin` repository: the name-filtering and retention (compaction) logic, the
Syncer push/pull orchestration, the checksum sidecar verification, the
local-filesystem helpers, the object-storage multipart sizing, and the
scheduler's tick-coalescing loop.  Each definition is translated from the Go
source file named in its doc comment.
-/

namespace Sin

/-- Extension of checksum sidecar files (`ChecksumExt`, internal/utils/io.go). -/
def ChecksumExt : String := ".sha256.txt"

/-- Modelled from the spec: the fixed backup-file marker extension
`core.BackupFileExt`.  Its defining source file is not part of the sources at
hand; the spec's persisted-layout section and the README fix it as `.bak`. -/
def BackupFileExt : String := ".bak"

/-- `versionTag l` holds when `l` is a 12-character list of shape
`\d{6}_\d{4}_` (six digits, underscore, four digits, underscore), the
timestamp prefix produced by `start.Format("060102_1504_")`. -/
def versionTag : List Char → Bool
  | [a, b, c, d, e, f, g, h, i, j, k, m] =>
    a.isDigit && b.isDigit && c.isDigit && d.isDigit && e.isDigit && f.isDigit &&
    (g == '_') && h.isDigit && i.isDigit && j.isDigit && k.isDigit && (m == '_')
  | _ => false

/-- The match test applied by `FilterBackupFileNames` (internal/utils/io.go):
Go's `regexp.MatchString` with the pattern
`\d{6}_\d{4}_<filename>\<ext>$` (dots of `filename` escaped, no `^` anchor),
which holds exactly when the name ends in a 12-character version tag followed
by the literal `filename ++ ext`.  Faithful for filenames whose only
regex-significant character is `.`, the one the code escapes. -/
def matchesBackupName (filename name : String) : Bool :=
  let tl := (filename ++ BackupFileExt).data
  let nd := name.data
  decide (tl.length + 12 ≤ nd.length) &&
  tl.isSuffixOf nd &&
  versionTag ((nd.drop (nd.length - tl.length - 12)).take 12)

/-- The spec's versioned-name invariant, stated from the spec's words for
comparison with `matchesBackupName`: a managed remote object name matches
`^\d{6}_\d{4}_<artifact-name><ext>$`, anchored at BOTH ends. -/
def specAnchoredBackupName (filename name : String) : Bool :=
  let tl := (filename ++ BackupFileExt).data
  let nd := name.data
  (nd.length == tl.length + 12) &&
  tl.isSuffixOf nd &&
  versionTag (nd.take 12)

/-- Lexicographic comparison of character lists, byte order on ASCII:
the order used by Go's `slices.Sort` and by `<=` on Go strings. -/
def charListLe : List Char → List Char → Bool
  | [], _ => true
  | _ :: _, [] => false
  | a :: as, b :: bs =>
    if a < b then true
    else if b < a then false
    else charListLe as bs

/-- Go string comparison `a <= b` (lexicographic). -/
def strLe (a b : String) : Bool := charListLe a.data b.data

/-- Insert a string into a lexicographically sorted list. -/
def insertStr (a : String) : List String → List String
  | [] => [a]
  | b :: bs => if strLe a b then a :: b :: bs else b :: insertStr a bs

/-- Go's `slices.Sort` on strings: the sorted (lexicographic) permutation of
the list, modelled by insertion sort under `strLe`. -/
def sortStrings : List String → List String
  | [] => []
  | a :: as => insertStr a (sortStrings as)

/-- `FilterBackupFileNames` (internal/utils/io.go): keeps the names accepted
by the compiled regex (see `matchesBackupName`) and sorts the remaining
result in alphabetical order.  The Go early return on an empty input list
produces the same value as filtering and sorting the empty list. -/
def FilterBackupFileNames (names : List String) (filename : String) : List String :=
  sortStrings (names.filter (fun name => matchesBackupName filename name))

/-- `mockAdapter.Save` (adapter_mock.go): the virtual namespace (log lines)
after saving under `filename`: existing occurrences of the name and of its
checksum sidecar are filtered out, then both are appended. -/
def mockSave (files : List String) (filename : String) : List String :=
  (files.filter (fun f => !(f == filename) && !(f == filename ++ ChecksumExt)))
    ++ [filename, filename ++ ChecksumExt]

/-- `mockAdapter.Del` (adapter_mock.go): removes the name and its checksum
sidecar from the virtual namespace. -/
def mockDel (files : List String) (filename : String) : List String :=
  files.filter (fun f => !(f == filename) && !(f == filename ++ ChecksumExt))

/-- `Syncer.compact` (part_009 lines 203-243) over a namespace with the mock
adapter's list/del semantics.  Effective keep is the adapter's `Keep` when
nonzero, else the Syncer's; `keep < 1` disables deletion.  It lists the
target, filters and sorts with `FilterBackupFileNames`, and when more than
`keep` names remain deletes every name except the last `keep` via `Del`.
Returns the new namespace together with the names passed to `Del`. -/
def compact (syncerKeep adapterKeep : Int) (filename : String) (files : List String) :
    List String × List String :=
  let keep := if adapterKeep = 0 then syncerKeep else adapterKeep
  if keep < 1 then (files, [])
  else
    let names := FilterBackupFileNames files filename
    if (names.length : Int) ≤ keep then (files, [])
    else
      let doomed := names.take (names.length - keep.toNat)
      (doomed.foldl mockDel files, doomed)

/-- The `each` gate in `Syncer.Sync` (part_009 line 103): the adapter is
skipped when `conf.Each > 1 && iter % conf.Each != 0`, synced otherwise.
(`%` models Go's `%`, which agrees with `Int.emod` on the nonnegative
values `iter` and `each` take here.) -/
def shouldSync (each iter : Int) : Bool :=
  !(decide (each > 1) && decide (iter % each ≠ 0))

/-- Static configuration of one sync target (`AdapterConfig`, adapter.go). -/
structure TargetCfg where
  name : String
  each : Int
  keep : Int
deriving DecidableEq

/-- A sync target: its configuration and its remote namespace, with the mock
adapter's append-only-log semantics standing for the storage backend. -/
structure TargetSt where
  cfg : TargetCfg
  files : List String
deriving DecidableEq

/-- Per-adapter outcome of one pass of the `Syncer.Sync` loop. -/
inductive SyncOutcome
  | skipped
  | saved
  | failed
deriving DecidableEq

/-- One adapter's treatment inside the `Syncer.Sync` loop (part_009 lines
101-136): skip when the `each` gate says so, otherwise call `Save`, whose
success is the external effect `ok` applied to the adapter's name. -/
def syncAttempt (ok : String → Bool) (iter : Int) (dest : String) (t : TargetSt) :
    TargetSt × SyncOutcome :=
  if shouldSync t.cfg.each iter then
    if ok t.cfg.name then ({ t with files := mockSave t.files dest }, .saved)
    else (t, .failed)
  else (t, .skipped)

/-- Value of one `Syncer.Sync` call: the new iteration counter, the new
target states, the recorded per-target errors (as the failing adapters'
names, in loop order), and the returned error (`none` models a nil return,
`some errs` models `errors.Join` of the nonempty recorded errors). -/
structure SyncResult where
  iter : Int
  targets : List TargetSt
  errs : List String
  result : Option (List String)
deriving DecidableEq

/-- One `Syncer.Sync` cycle (part_009 lines 92-165).  Every adapter is
attempted in order; failures are recorded and the loop continues.  If no
adapter saved, the iteration counter is left alone and the call returns the
joined errors exactly when fail-fast is on and some error was recorded.  If
some adapter saved, the counter is incremented once, every successful
adapter is compacted (compaction with mock del semantics cannot fail, so no
compaction error joins `errs`), and the joined errors are returned exactly
when fail-fast is on (`errors.Join` of an empty slice being nil). -/
def syncCycle (failFast : Bool) (syncerKeep : Int) (filename stamp : String)
    (ok : String → Bool) (iter : Int) (targets : List TargetSt) : SyncResult :=
  let dest := stamp ++ filename ++ BackupFileExt
  let processed := targets.map (syncAttempt ok iter dest)
  let errs := (processed.filter (fun p => decide (p.2 = SyncOutcome.failed))).map
    (fun p => p.1.cfg.name)
  if processed.any (fun p => decide (p.2 = SyncOutcome.saved)) then
    { iter := iter + 1
      targets := processed.map (fun p =>
        if p.2 = SyncOutcome.saved then
          { p.1 with files := (compact syncerKeep p.1.cfg.keep filename p.1.files).1 }
        else p.1)
      errs := errs
      result := if failFast ∧ errs ≠ [] then some errs else none }
  else
    { iter := iter
      targets := processed.map (fun p => p.1)
      errs := errs
      result := if failFast ∧ errs ≠ [] then some errs else none }

/-- `m` consecutive Sync cycles, cycle `c` using timestamp prefix
`stampAt c` and per-adapter Save success `okAt c` (cycles counted from 0). -/
def runSync (failFast : Bool) (syncerKeep : Int) (filename : String)
    (stampAt : Nat → String) (okAt : Nat → String → Bool) :
    Nat → Int × List TargetSt → Int × List TargetSt
  | 0, st => st
  | m + 1, st =>
    let st' := runSync failFast syncerKeep filename stampAt okAt m st
    let r := syncCycle failFast syncerKeep filename (stampAt m) (okAt m) st'.1 st'.2
    (r.iter, r.targets)

/-- A Downloader-capable adapter as `Syncer.Pull` sees it: its name, the
names its `ListFileNames` reports, and which files its `Download` fetches
successfully (the external effect). -/
structure PullSource where
  name : String
  remote : List String
  dlOk : String → Bool

/-- Mutable bookkeeping threaded through one downloader walk of `Syncer.Pull`
(pull.go lines 91-118): the outstanding want count `toPull`, the total pulled
counter, the files present in the local pull directory, and every `Download`
attempted so far (successful or not), in call order. -/
structure WalkSt where
  toPull : Nat
  pulledCnt : Nat
  localFiles : List String
  attempts : List String
deriving DecidableEq

/-- The inner walk of one downloader's pullable list (pull.go lines 91-118),
candidates given newest-first (the reverse of the sorted Go slice, matching
the walk order `i := len(pullable)-1; i >= 0; i--`).  Each candidate is
removed from the cache before inspection; `names` is the stale sorted local
listing snapshot taken at the top of the outer pass and `pulled` is its set,
so membership and the short-circuit test both consult `names`.  Returns the
candidates still cached, the new bookkeeping, and whether the downloader was
short-circuited (its cache nilled and `availableDownloaderLeft` decremented). -/
def pullWalk (dlOk : String → Bool) (keep : Int) (names : List String) :
    List String → WalkSt → List String × WalkSt × Bool
  | [], st => ([], st, false)
  | file :: rest, st =>
    if decide ((names.length : Int) ≥ keep) && !names.isEmpty
        && strLe file (names.getLastD "") then
      ([], st, true)
    else if names.contains file then
      pullWalk dlOk keep names rest st
    else
      let st' := { st with attempts := st.attempts ++ [file] }
      if dlOk file then
        let st'' := { st' with
          toPull := st'.toPull - 1
          pulledCnt := st'.pulledCnt + 1
          localFiles := st'.localFiles ++ [file] }
        if st''.toPull = 0 then (rest, st'', false)
        else pullWalk dlOk keep names rest st''
      else pullWalk dlOk keep names rest st'

/-- One pass of the `for _, downloader := range downloaders` loop (pull.go
lines 68-119): caches are lazily filled from `ListFileNames` filtered to the
artifact (kept newest-first here), a downloader with an empty cached list
costs one `availableDownloaderLeft`, and the pass stops early once `toPull`
reaches zero. -/
def pullPass (filename : String) (keep : Int) (names : List String) :
    List (PullSource × Option (List String)) → WalkSt → Int →
    List (PullSource × Option (List String)) × WalkSt × Int
  | [], st, avail => ([], st, avail)
  | (d, cache) :: rest, st, avail =>
    if st.toPull = 0 then ((d, cache) :: rest, st, avail)
    else
      let pullable := match cache with
        | some c => c
        | none => (FilterBackupFileNames d.remote filename).reverse
      if pullable.isEmpty then
        let r := pullPass filename keep names rest st (avail - 1)
        ((d, some []) :: r.1, r.2.1, r.2.2)
      else
        let w := pullWalk d.dlOk keep names pullable st
        let avail' := if w.2.2 then avail - 1 else avail
        let r := pullPass filename keep names rest w.2.1 avail'
        ((d, some w.1) :: r.1, r.2.1, r.2.2)

/-- State of the outer reconciliation loop of `Syncer.Pull` (pull.go lines
46-124): the downloaders with their pullable caches, the local directory
contents, the pulled counter, the attempted downloads, and
`availableDownloaderLeft`.  `errs` mirrors the Go `errs` slice: the loop
never appends to it (download failures are only logged), so it can only be
extended by the post-loop local compaction. -/
structure PullLoopSt where
  srcs : List (PullSource × Option (List String))
  localFiles : List String
  pulledCnt : Nat
  attempts : List String
  avail : Int
  errs : List String

/-- The outer `for availableDownloaderLeft > 0` loop of `Syncer.Pull`
(pull.go lines 51-124), with explicit fuel bounding the number of passes.
Each pass re-lists the local directory, recomputes `toPull` (at least 1, and
`keep - len(names)` when `keep > 1`), runs the downloader pass, and exits
when `toPull` reached zero. -/
def pullLoop (filename : String) (keep : Int) : Nat → PullLoopSt → PullLoopSt
  | 0, s => s
  | fuel + 1, s =>
    if s.avail > 0 then
      let names := FilterBackupFileNames s.localFiles filename
      let toPull : Nat := if keep > 1 then (max (keep - (names.length : Int)) 1).toNat else 1
      let st0 : WalkSt := { toPull := toPull, pulledCnt := s.pulledCnt,
                            localFiles := s.localFiles, attempts := s.attempts }
      let r := pullPass filename keep names s.srcs st0 s.avail
      let s' : PullLoopSt := { srcs := r.1, localFiles := r.2.1.localFiles,
                               pulledCnt := r.2.1.pulledCnt, attempts := r.2.1.attempts,
                               avail := r.2.2, errs := s.errs }
      if r.2.1.toPull = 0 then s'
      else pullLoop filename keep fuel s'
    else s

/-- `Syncer.compactLocal` (pull.go lines 172-203): `keep < 1` disables
deletion; otherwise the filtered sorted local names beyond the newest `keep`
are deleted via `DelFile`, which removes the file and its checksum sidecar. -/
def compactLocal (keep : Int) (filename : String) (localFiles : List String) : List String :=
  if keep < 1 then localFiles
  else
    let names := FilterBackupFileNames localFiles filename
    if (names.length : Int) ≤ keep then localFiles
    else (names.take (names.length - keep.toNat)).foldl mockDel localFiles

/-- `errors.Join` over recorded error labels: nil for the empty slice. -/
def joinErrs (errs : List String) : Option (List String) :=
  if errs.isEmpty then none else some errs

/-- Observable outcome of one `Syncer.Pull` call. -/
structure PullOutput where
  localFiles : List String
  pulledCnt : Nat
  attempts : List String
  result : Option (List String)
deriving DecidableEq

/-- `Syncer.Pull` (pull.go lines 19-148) for an accessible local pull
directory: an empty downloader selection is an error; otherwise the
reconciliation loop runs, and afterwards either nothing was pulled — the
recorded errors (none: the loop records no download errors) are joined only
under fail-fast, so the call returns nil — or the local directory is
compacted to the retention count and the call returns the fail-fast join of
the recorded errors (local compaction with total `DelFile` semantics cannot
fail, so that join is also nil). -/
def Pull (failFast : Bool) (keep : Int) (filename : String)
    (srcs : List PullSource) (localFiles : List String) (fuel : Nat) : PullOutput :=
  if srcs.isEmpty then
    { localFiles := localFiles, pulledCnt := 0, attempts := [],
      result := some ["empty list of downloadable targets"] }
  else
    let s := pullLoop filename keep fuel
      { srcs := srcs.map (fun d => (d, none)), localFiles := localFiles,
        pulledCnt := 0, attempts := [], avail := (srcs.length : Int), errs := [] }
    if s.pulledCnt = 0 then
      { localFiles := s.localFiles, pulledCnt := 0, attempts := s.attempts,
        result := if failFast && !s.errs.isEmpty then some s.errs else none }
    else
      { localFiles := compactLocal keep filename s.localFiles,
        pulledCnt := s.pulledCnt, attempts := s.attempts,
        result := if failFast then joinErrs s.errs else none }

/-- What `os.Stat` can report about a path in the local filesystem model:
a regular file (with its content), a directory, or a stat failure other
than `os.ErrNotExist` (e.g. permission denied).  An absent binding models
`os.ErrNotExist`. -/
inductive FsEntry
  | file (content : String)
  | dir
  | statErr
deriving DecidableEq

/-- A local filesystem as a finite path-to-entry association list. -/
abbrev Fs : Type := List (String × FsEntry)

/-- Look up a path (first binding wins). -/
def fsGet (fs : Fs) (path : String) : Option FsEntry :=
  (fs.find? (fun p => p.1 == path)).map (fun p => p.2)

/-- `os.Create` followed by a write: truncate/replace the binding. -/
def fsPut (fs : Fs) (path content : String) : Fs :=
  (fs.filter (fun p => !(p.1 == path))) ++ [(path, FsEntry.file content)]

/-- `os.Remove` of an existing binding. -/
def fsRemove (fs : Fs) (path : String) : Fs :=
  fs.filter (fun p => !(p.1 == path))

/-- Errors surfaced by checksum verification: a generic I/O error, or the
distinguished `ErrChecksumMismatch`. -/
inductive VerifyErr
  | ioErr
  | mismatch
deriving DecidableEq

/-- `VerifyFileSHA256Checksum` (internal/utils/io.go lines 165-209), with
`hash` standing for the hex-encoded SHA-256 digest of a file's content.
If the sidecar `path + ChecksumExt` does not exist (or is a directory,
which `FileExists` reports as non-existent), verification is skipped; a
failing sidecar stat returns that error.  An empty stored checksum is also
skipped.  Otherwise the artifact is hashed (failure to read it is an I/O
error); on disagreement the sidecar is overwritten with the actual digest
and `ErrChecksumMismatch` is returned. -/
def VerifyFileSHA256Checksum (hash : String → String) (fs : Fs) (path : String) :
    Fs × Option VerifyErr :=
  let destChecksum := path ++ ChecksumExt
  match fsGet fs destChecksum with
  | none => (fs, none)
  | some FsEntry.dir => (fs, none)
  | some FsEntry.statErr => (fs, some VerifyErr.ioErr)
  | some (FsEntry.file stored) =>
    if stored = "" then (fs, none)
    else
      match fsGet fs path with
      | some (FsEntry.file body) =>
        if stored = hash body then (fs, none)
        else (fsPut fs destChecksum (hash body), some VerifyErr.mismatch)
      | _ => (fs, some VerifyErr.ioErr)

/-- How a `DelFile` call can end: a nil return, a non-nil error return, or a
runtime panic (which in Go aborts the call without returning). -/
inductive DelOutcome
  | ok
  | errReturned
  | panicked
deriving DecidableEq

/-- `DelFile` (internal/utils/io.go lines 108-124).  The guard is
`if info, err := os.Stat(path); err != nil || info.IsDir()` followed by
`if errors.Is(err, os.ErrNotExist) || info.IsDir() { return nil }; return err`:
when the stat fails with anything other than `os.ErrNotExist`, the inner
condition evaluates `info.IsDir()` on the nil `FileInfo` of the failed stat,
which panics, so `return err` is never reached.  For an existing regular
file the file is removed, and then its checksum sidecar unless the sidecar
does not exist. -/
def DelFile (fs : Fs) (path : String) : Fs × DelOutcome :=
  match fsGet fs path with
  | none => (fs, DelOutcome.ok)
  | some FsEntry.statErr => (fs, DelOutcome.panicked)
  | some FsEntry.dir => (fs, DelOutcome.ok)
  | some (FsEntry.file _) =>
    let fs' := fsRemove fs path
    match fsGet fs' (path ++ ChecksumExt) with
    | none => (fs', DelOutcome.ok)
    | some _ => (fsRemove fs' (path ++ ChecksumExt), DelOutcome.ok)

/-- `mockAdapter.ListFileNames` (adapter_mock.go lines 78-93) applied to the
log's recorded names and an already-joined virtual path: the empty path
returns every recorded name; otherwise a trailing `/` is ensured and the log
is filtered with `!strings.HasPrefix(file, prefix)`. -/
def mockListFileNames (files : List String) (prefixPath : String) : List String :=
  if prefixPath = "" then files
  else
    let pfx := if prefixPath.data.getLastD ' ' = '/' then prefixPath else prefixPath ++ "/"
    files.filter (fun file => !(pfx.data.isPrefixOf file.data))

/-- One mebibyte (`MB`, adapter_s3.go). -/
def MB : Int := 1024 * 1024

/-- `defaultPartSizeMB` (adapter_s3.go). -/
def defaultPartSizeMB : Int := 50

/-- The part-size validation in `newS3Adapter`: a configured value outside
`[5, 4096]` MB is replaced by the 50 MB default. -/
def newS3AdapterPartSizeMB (configured : Int) : Int :=
  if configured < 5 ∨ configured > 4 * 1024 then defaultPartSizeMB else configured

/-- The part size handed to the transfer manager in both
`uploadMultipart` and `downloadMultipart` (adapter_s3.go):
`u.PartSize = int64(min(f.Multipart.PartSizeMB, 10) * MB)`. -/
def multipartPartSizeBytes (partSizeMB : Int) : Int :=
  min partSizeMB 10 * MB

/-- State of the cron-cadence run loop (`runCron`, part_007 lines 51-100):
the occupancy of the capacity-1 `jobs` channel, whether the single loop
goroutine is inside `fn`, and counters of cron tick callbacks fired, job
executions started, and job executions finished. -/
structure CronSt where
  pending : Nat
  running : Bool
  ticks : Nat
  started : Nat
  finished : Nat
deriving DecidableEq

/-- Interleaving steps of `runCron`: a cron tick callback performs the
non-blocking send `select { case jobs <- struct{}{}: ... default: }` on the
capacity-1 channel, so it enqueues only when the channel is empty and is
dropped otherwise; the loop goroutine can start `fn` only by receiving from
the channel while it is not already inside `fn` (it is a single goroutine
alternating between `select` and `fn`); and a running `fn` can return. -/
inductive CronStep : CronSt → CronSt → Prop
  | tick (s : CronSt) :
      CronStep s { s with ticks := s.ticks + 1,
                          pending := if s.pending = 0 then 1 else s.pending }
  | start (s : CronSt) (hp : s.pending ≠ 0) (hr : s.running = false) :
      CronStep s { s with pending := s.pending - 1, running := true,
                          started := s.started + 1 }
  | finish (s : CronSt) (hr : s.running = true) :
      CronStep s { s with running := false, finished := s.finished + 1 }

/-- Initial state of the cron run loop: empty channel, loop at `select`. -/
def CronSt.init : CronSt := ⟨0, false, 0, 0, 0⟩

/-- States the cron run loop can reach from its initial state. -/
inductive CronReachable : CronSt → Prop
  | init : CronReachable CronSt.init
  | step {s t : CronSt} : CronReachable s → CronStep s t → CronReachable t

/-- Events of the duration-cadence run loop (`runInterval`, part_007 lines
27-49): arming/rearming the timer, entering `fn`, and `fn` returning. -/
inductive IEv
  | rearm
  | start
  | finish
deriving DecidableEq

/-- Event trace of `runInterval` over `n` timer firings: the timer is armed
and the job runs once to completion before the loop, and then every firing
rearms the timer and runs the job once to completion — all inside the single
loop goroutine, so the trace is sequential by construction. -/
def runIntervalTrace : Nat → List IEv
  | 0 => [IEv.rearm, IEv.start, IEv.finish]
  | n + 1 => runIntervalTrace n ++ [IEv.rearm, IEv.start, IEv.finish]

/-- Replay of the single `runInterval` loop goroutine over an event trace,
`b` recording whether it is inside `fn`: the goroutine rearms the timer or
enters `fn` only between jobs, and only a running job can return.  `none`
marks a trace the sequential loop cannot produce. -/
def traceRun : Bool → List IEv → Option Bool
  | b, [] => some b
  | false, IEv.rearm :: r => traceRun false r
  | false, IEv.start :: r => traceRun true r
  | true, IEv.finish :: r => traceRun false r
  | _, _ => none

/-- A run of `Syncer.Sync` cycles started from a fresh Syncer (`iter = 0`). -/
def runSyncFrom (failFast : Bool) (syncerKeep : Int) (filename : String)
    (stampAt : Nat → String) (okAt : Nat → String → Bool) (targets : List TargetSt)
    (m : Nat) : Int × List TargetSt :=
  runSync failFast syncerKeep filename stampAt okAt m ((0 : Int), targets)

/-- Whether cycle `c` of such a run is successful: some adapter is due per
its `each` policy and its Save succeeds, so that `Syncer.Sync` reaches the
`s.iter++` line in that cycle. -/
def cycleSuccessAt (failFast : Bool) (syncerKeep : Int) (filename : String)
    (stampAt : Nat → String) (okAt : Nat → String → Bool) (targets : List TargetSt)
    (c : Nat) : Bool :=
  let st := runSyncFrom failFast syncerKeep filename stampAt okAt targets c
  st.2.any (fun t => shouldSync t.cfg.each st.1 && okAt c t.cfg.name)

/-- C1: compaction is claimed never to delete a name that does not match the
anchored pattern `^\d{6}_\d{4}_<artifact-name><ext>$`.  The compiled regex in
`FilterBackupFileNames` has no `^` anchor, so a foreign name whose proper
suffix matches is classified as managed: after one successful sync of
artifact `data` (N = 1 ≥ k = 1) into a namespace that also holds the foreign
name `0230501_1229_data.bak` (seven leading digits — no anchored match),
compaction with retention 1 deletes exactly that foreign name. -/
theorem compact_deletes_unanchored_foreign_name :
    (compact 1 0 "data" (mockSave ["0230501_1229_data.bak"] "230501_1230_data.bak")).2
        = ["0230501_1229_data.bak"]
    ∧ matchesBackupName "data" "0230501_1229_data.bak" = true
    ∧ specAnchoredBackupName "data" "0230501_1229_data.bak" = false
    ∧ specAnchoredBackupName "data" "230501_1230_data.bak" = true := by decide

/-- C6: if no checksum sidecar exists, `VerifyFileSHA256Checksum` succeeds
and changes nothing; if a sidecar stores a nonempty digest that disagrees
with the freshly computed digest of the artifact, the sidecar is overwritten
with the actual digest and the checksum-mismatch error — distinguishable
from an I/O error — is still returned. -/
theorem verify_sidecar_skip_and_mismatch (hash : String → String) (fs : Fs) (path : String) :
    (fsGet fs (path ++ ChecksumExt) = none →
      VerifyFileSHA256Checksum hash fs path = (fs, none))
    ∧ (∀ stored body,
        fsGet fs (path ++ ChecksumExt) = some (FsEntry.file stored) →
        stored ≠ "" →
        fsGet fs path = some (FsEntry.file body) →
        stored ≠ hash body →
        VerifyFileSHA256Checksum hash fs path
            = (fsPut fs (path ++ ChecksumExt) (hash body), some VerifyErr.mismatch)
          ∧ VerifyErr.mismatch ≠ VerifyErr.ioErr) := by
  constructor
  · intro h
    simp only [VerifyFileSHA256Checksum, h]
  · intro stored body hside hne hbody hdiff
    refine ⟨?_, by simp⟩
    simp only [VerifyFileSHA256Checksum, hside, hbody, if_neg hne, if_neg hdiff]

/-- C6 witness: a concrete filesystem with a stale sidecar, and one with no
sidecar at all. -/
theorem verify_sidecar_skip_and_mismatch_witness :
    (VerifyFileSHA256Checksum (fun s => "h" ++ s)
        [("a.bak", FsEntry.file "body"), ("a.bak" ++ ChecksumExt, FsEntry.file "wrong")] "a.bak"
        = (fsPut [("a.bak", FsEntry.file "body"), ("a.bak" ++ ChecksumExt, FsEntry.file "wrong")]
            ("a.bak" ++ ChecksumExt) ("h" ++ "body"), some VerifyErr.mismatch)
      ∧ VerifyErr.mismatch ≠ VerifyErr.ioErr)
    ∧ VerifyFileSHA256Checksum (fun s => "h" ++ s) [("a.bak", FsEntry.file "body")] "a.bak"
        = ([("a.bak", FsEntry.file "body")], none) :=
  ⟨(verify_sidecar_skip_and_mismatch (fun s => "h" ++ s)
      [("a.bak", FsEntry.file "body"), ("a.bak" ++ ChecksumExt, FsEntry.file "wrong")] "a.bak").2
      "wrong" "body" (by decide) (by decide) (by decide) (by decide),
   (verify_sidecar_skip_and_mismatch (fun s => "h" ++ s)
      [("a.bak", FsEntry.file "body")] "a.bak").1 (by decide)⟩

/-- C8: `newS3Adapter` does replace an out-of-range part size with the 50 MB
default bounded to `[5, 4096]`, but the multipart transfer paths feed the
manager `min(PartSizeMB, 10) * MB`, so the configured (bounded) value is not
the one used: already the default configuration transfers with 10 MB parts,
not 50 MB. -/
theorem multipart_part_size_capped_at_ten :
    newS3AdapterPartSizeMB 0 = defaultPartSizeMB
    ∧ defaultPartSizeMB = 50
    ∧ (5 ≤ newS3AdapterPartSizeMB 0 ∧ newS3AdapterPartSizeMB 0 ≤ 4096)
    ∧ multipartPartSizeBytes (newS3AdapterPartSizeMB 0) = 10 * MB
    ∧ multipartPartSizeBytes (newS3AdapterPartSizeMB 0) ≠ newS3AdapterPartSizeMB 0 * MB := by
  decide

/-- C9: `ListFileNames` is claimed to return exactly the immediate entries
under the given virtual path for every backend adapter.  The mock adapter
filters its log with `!strings.HasPrefix(file, prefix)`: for the log
`["a/x", "y"]` and path `a` it returns `["y"]` — the entries NOT under the
path — instead of the immediate entry `x` under `a`. -/
theorem mock_list_returns_complement :
    mockListFileNames ["a/x", "y"] "a" = ["y"]
    ∧ mockListFileNames ["a/x", "y"] "" = ["a/x", "y"] := by decide

/-- C10: `DelFile` is claimed total — nil for a missing path or a directory
and the stat error otherwise.  It is nil in the first two cases, but when
`os.Stat` fails with anything other than `os.ErrNotExist` the guard
dereferences the nil `FileInfo` (`info.IsDir()`), so the call panics instead
of returning the error. -/
theorem delfile_panics_on_stat_error :
    (DelFile [("p", FsEntry.statErr)] "p").2 = DelOutcome.panicked
    ∧ DelOutcome.panicked ≠ DelOutcome.errReturned
    ∧ DelOutcome.panicked ≠ DelOutcome.ok
    ∧ (DelFile [] "p").2 = DelOutcome.ok
    ∧ (DelFile [("d", FsEntry.dir)] "d").2 = DelOutcome.ok := by decide

/-- An adapter comes out of the Sync loop marked saved exactly when it was
due and its Save succeeded. -/
theorem any_saved_eq (ok : String → Bool) (iter : Int) (dest : String) (ts : List TargetSt) :
    (ts.map (syncAttempt ok iter dest)).any (fun p => decide (p.2 = SyncOutcome.saved))
      = ts.any (fun t => shouldSync t.cfg.each iter && ok t.cfg.name) := by
  induction ts with
  | nil => rfl
  | cons t ts ih =>
    simp only [List.map_cons, List.any_cons, ih]
    congr 1
    by_cases hs : shouldSync t.cfg.each iter = true <;>
      by_cases ho : ok t.cfg.name = true <;>
        simp [syncAttempt, hs, ho]

/-- The iteration counter after one Sync cycle: incremented exactly once
when some adapter saved (however many saved), unchanged otherwise. -/
theorem syncCycle_iter (failFast : Bool) (syncerKeep : Int) (filename stamp : String)
    (ok : String → Bool) (iter : Int) (targets : List TargetSt) :
    (syncCycle failFast syncerKeep filename stamp ok iter targets).iter
      = if targets.any (fun t => shouldSync t.cfg.each iter && ok t.cfg.name)
        then iter + 1 else iter := by
  simp only [syncCycle, any_saved_eq]
  by_cases h : targets.any (fun t => shouldSync t.cfg.each iter && ok t.cfg.name) = true <;>
    simp [h]

/-- For `each = n ≥ 1` the skip gate reduces to the `iteration mod each == 0`
test. -/
theorem shouldSync_eq_decide_mod (each iter : Int) (h : 1 ≤ each) :
    shouldSync each iter = decide (iter % each = 0) := by
  unfold shouldSync
  by_cases h1 : (1 : Int) < each
  · by_cases h2 : iter % each = 0 <;> simp [h1, h2]
  · have he : each = 1 := le_antisymm (not_lt.mp h1) h
    subst he
    simp [Int.emod_one]

/-- Counting the cycles below `m` in which the `each = n` gate fires yields
`⌈m / n⌉ = (m + n - 1) / n`. -/
theorem count_shouldSync (n m : Nat) (hn : 1 ≤ n) :
    ((List.range m).filter (fun c : Nat => shouldSync (n : Int) (c : Int))).length
      = (m + n - 1) / n := by
  induction m with
  | zero =>
    simp only [List.range_zero, List.filter_nil, List.length_nil]
    exact (Nat.div_eq_of_lt (by omega)).symm
  | succ m ih =>
    rw [List.range_succ, List.filter_append, List.length_append, ih]
    have hcast : ((m : Int) % (n : Int) = 0) ↔ m % n = 0 := by
      rw [← Int.natCast_mod]
      exact_mod_cast Iff.rfl
    have hss : shouldSync (n : Int) (m : Int) = decide (m % n = 0) := by
      rw [shouldSync_eq_decide_mod _ _ (by exact_mod_cast hn)]
      simp [hcast]
    have key : (m + n) / n = (m + n - 1) / n + if n ∣ m then 1 else 0 := by
      have h1 : m + n = (m + n - 1) + 1 := by omega
      rw [h1, Nat.succ_div, ← h1]
      congr 1
      simp [Nat.dvd_add_self_right]
    have hgoal : m + 1 + n - 1 = m + n := by omega
    by_cases hd : m % n = 0
    · have hdvd : n ∣ m := Nat.dvd_of_mod_eq_zero hd
      simp [hss, hd, hgoal, key, hdvd]
    · have hdvd : ¬ n ∣ m := fun hc => hd (Nat.mod_eq_zero_of_dvd hc)
      simp [hss, hd, hgoal, key, hdvd]

/-- The fresh-Syncer run: while every cycle is successful, the iteration
counter counts the completed cycles. -/
theorem runSyncFrom_iter (failFast : Bool) (syncerKeep : Int) (filename : String)
    (stampAt : Nat → String) (okAt : Nat → String → Bool) (targets : List TargetSt)
    (m : Nat)
    (hsucc : ∀ c, c < m →
      cycleSuccessAt failFast syncerKeep filename stampAt okAt targets c = true) :
    (runSyncFrom failFast syncerKeep filename stampAt okAt targets m).1 = (m : Int) := by
  induction m with
  | zero => rfl
  | succ m ih =>
    have hm := hsucc m (by omega)
    have ihm := ih (fun c hc => hsucc c (by omega))
    unfold cycleSuccessAt at hm
    simp only [runSyncFrom, runSync] at *
    rw [syncCycle_iter, hm]
    rw [if_pos rfl, ihm]
    push_cast
    ring

/-- A due adapter whose Save succeeds comes out saved exactly when the
iteration satisfies `iteration mod each == 0`. -/
theorem syncAttempt_saved_iff (ok : String → Bool) (iter : Int) (dest : String)
    (t : TargetSt) (n : Int) (he : t.cfg.each = n) (hn : 1 ≤ n)
    (ho : ok t.cfg.name = true) :
    ((syncAttempt ok iter dest t).2 = SyncOutcome.saved ↔ iter % n = 0) := by
  subst he
  have h := shouldSync_eq_decide_mod t.cfg.each iter hn
  by_cases hm : iter % t.cfg.each = 0 <;> simp [syncAttempt, h, hm, ho]

/-- C2: in a fresh-Syncer run whose first `m` cycles are all successful, the
iteration counter is exactly the number of completed successful cycles — it
advances by one per successful cycle, not per target (`syncCycle` increments
it once however many adapters saved); an adapter with `each = n ≥ 1` whose
Save succeeds is synced in a cycle exactly when `iteration mod each == 0`;
the number of iterations `c < m` passing that gate is `⌈m/n⌉ = (m+n-1)/n`;
and iteration 0 (cycle 1) always passes the gate.  Together: across `m`
consecutive successful cycles the target receives exactly `⌈m/n⌉` syncs,
always including cycle 1. -/
theorem each_policy_gives_ceil_syncs (failFast : Bool) (syncerKeep : Int)
    (filename : String) (stampAt : Nat → String) (okAt : Nat → String → Bool)
    (targets : List TargetSt) (m n : Nat) (hn : 1 ≤ n)
    (hsucc : ∀ c, c < m →
      cycleSuccessAt failFast syncerKeep filename stampAt okAt targets c = true) :
    (∀ c, c ≤ m →
      (runSyncFrom failFast syncerKeep filename stampAt okAt targets c).1 = (c : Int))
    ∧ (∀ (stamp : String) (ok : String → Bool) (iter : Int) (ts : List TargetSt),
        (syncCycle failFast syncerKeep filename stamp ok iter ts).iter
          = if ts.any (fun t => shouldSync t.cfg.each iter && ok t.cfg.name)
            then iter + 1 else iter)
    ∧ (∀ (ok : String → Bool) (iter : Int) (dest : String) (t : TargetSt),
        t.cfg.each = (n : Int) → ok t.cfg.name = true →
        ((syncAttempt ok iter dest t).2 = SyncOutcome.saved ↔ iter % (n : Int) = 0))
    ∧ ((List.range m).filter (fun c : Nat => shouldSync (n : Int) (c : Int))).length
        = (m + n - 1) / n
    ∧ shouldSync (n : Int) ((0 : Nat) : Int) = true := by
  refine ⟨?_, ?_, ?_, ?_, ?_⟩
  · intro c hc
    exact runSyncFrom_iter failFast syncerKeep filename stampAt okAt targets c
      (fun c' hc' => hsucc c' (by omega))
  · intro stamp ok iter ts
    exact syncCycle_iter failFast syncerKeep filename stamp ok iter ts
  · intro ok iter dest t he ho
    exact syncAttempt_saved_iff ok iter dest t (n : Int) he (by exact_mod_cast hn) ho
  · exact count_shouldSync n m hn
  · simp [shouldSync, Int.zero_emod]

/-- `syncAttempt` never changes an adapter's configuration. -/
theorem syncAttempt_cfg (ok : String → Bool) (iter : Int) (dest : String) (t : TargetSt) :
    (syncAttempt ok iter dest t).1.cfg = t.cfg := by
  by_cases hs : shouldSync t.cfg.each iter = true <;>
    by_cases ho : ok t.cfg.name = true <;> simp [syncAttempt, hs, ho]

/-- The recorded errors of one Sync loop are exactly the names of the due
adapters whose Save failed, in loop order — failures after other failures or
successes are still recorded, so the loop continues past them. -/
theorem sync_errs_eq (ok : String → Bool) (iter : Int) (dest : String) (ts : List TargetSt) :
    ((ts.map (syncAttempt ok iter dest)).filter
        (fun p => decide (p.2 = SyncOutcome.failed))).map (fun p => p.1.cfg.name)
      = (ts.filter (fun t => shouldSync t.cfg.each iter && !(ok t.cfg.name))).map
          (fun t => t.cfg.name) := by
  induction ts with
  | nil => rfl
  | cons t ts ih =>
    by_cases hs : shouldSync t.cfg.each iter = true <;>
      by_cases ho : ok t.cfg.name = true <;>
        simp [syncAttempt, hs, ho, List.filter_cons, ih]

/-- After a cycle with at least one save, every due-and-successful adapter's
namespace is its old namespace with the versioned name saved and then
compacted, and every other adapter is untouched. -/
theorem sync_targets_eq (syncerKeep : Int) (filename : String) (ok : String → Bool)
    (iter : Int) (dest : String) (ts : List TargetSt) :
    (ts.map (syncAttempt ok iter dest)).map (fun p =>
        if p.2 = SyncOutcome.saved then
          { p.1 with files := (compact syncerKeep p.1.cfg.keep filename p.1.files).1 }
        else p.1)
      = ts.map (fun t =>
          if shouldSync t.cfg.each iter && ok t.cfg.name then
            { t with files := (compact syncerKeep t.cfg.keep filename
                (mockSave t.files dest)).1 }
          else t) := by
  induction ts with
  | nil => rfl
  | cons t ts ih =>
    by_cases hs : shouldSync t.cfg.each iter = true <;>
      by_cases ho : ok t.cfg.name = true <;>
        simp [syncAttempt, hs, ho, ih]

/-- The fail-fast return formula: returning the joined errors under
fail-fast and nil otherwise is the same as returning `some` of the nonempty
error list exactly when fail-fast is on and some error was recorded. -/
theorem ite_joinErrs (b : Bool) (e : List String) :
    (if b = true ∧ e ≠ [] then some e else none)
      = (if b = true then joinErrs e else none) := by
  cases b <;> by_cases he : e = [] <;> simp [joinErrs, he]

/-- C3: when at least one adapter is due and its Save succeeds, one Sync
cycle records every due adapter whose Save failed (continuing past each
failure), returns the joined recorded errors exactly when fail-fast is on
and nil otherwise, applies the save and the compaction to every healthy
target, leaves failed and skipped targets untouched, and increments the
iteration counter once. -/
theorem sync_partial_failure_aggregation (failFast : Bool) (syncerKeep : Int)
    (filename stamp : String) (ok : String → Bool) (iter : Int) (targets : List TargetSt)
    (hsucc : targets.any (fun t => shouldSync t.cfg.each iter && ok t.cfg.name) = true) :
    (syncCycle failFast syncerKeep filename stamp ok iter targets).errs
        = (targets.filter (fun t => shouldSync t.cfg.each iter && !(ok t.cfg.name))).map
            (fun t => t.cfg.name)
    ∧ (syncCycle failFast syncerKeep filename stamp ok iter targets).result
        = (if failFast
           then joinErrs (syncCycle failFast syncerKeep filename stamp ok iter targets).errs
           else none)
    ∧ (syncCycle failFast syncerKeep filename stamp ok iter targets).targets
        = targets.map (fun t =>
            if shouldSync t.cfg.each iter && ok t.cfg.name then
              { t with files := (compact syncerKeep t.cfg.keep filename
                  (mockSave t.files (stamp ++ filename ++ BackupFileExt))).1 }
            else t)
    ∧ (syncCycle failFast syncerKeep filename stamp ok iter targets).iter = iter + 1 := by
  have hany := any_saved_eq ok iter (stamp ++ filename ++ BackupFileExt) targets
  refine ⟨?_, ?_, ?_, ?_⟩
  · simp only [syncCycle, hany, hsucc, if_true]
    exact sync_errs_eq ok iter (stamp ++ filename ++ BackupFileExt) targets
  · simp only [syncCycle, hany, hsucc, if_true]
    exact ite_joinErrs failFast _
  · simp only [syncCycle, hany, hsucc, if_true]
    exact sync_targets_eq syncerKeep filename ok iter (stamp ++ filename ++ BackupFileExt)
      targets
  · simp only [syncCycle, hany, hsucc, if_true]

/-- C3 witness: two targets, the first failing every Save, under fail-fast;
the healthy target's write and compaction still took effect and the joined
error names the broken target. -/
theorem sync_partial_failure_aggregation_witness :
    (([⟨⟨"bad", 1, 0⟩, []⟩, ⟨⟨"good", 1, 0⟩, []⟩] : List TargetSt).any
        (fun t => shouldSync t.cfg.each 0 && (fun n => n == "good") t.cfg.name) = true)
    ∧ ((syncCycle true 2 "data" "230501_1230_" (fun n => n == "good") 0
          [⟨⟨"bad", 1, 0⟩, []⟩, ⟨⟨"good", 1, 0⟩, []⟩]).errs
        = (([⟨⟨"bad", 1, 0⟩, []⟩, ⟨⟨"good", 1, 0⟩, []⟩] : List TargetSt).filter
            (fun t => shouldSync t.cfg.each 0 && !((fun n => n == "good") t.cfg.name))).map
              (fun t => t.cfg.name)
    ∧ (syncCycle true 2 "data" "230501_1230_" (fun n => n == "good") 0
          [⟨⟨"bad", 1, 0⟩, []⟩, ⟨⟨"good", 1, 0⟩, []⟩]).result
        = (if true
           then joinErrs (syncCycle true 2 "data" "230501_1230_" (fun n => n == "good") 0
              [⟨⟨"bad", 1, 0⟩, []⟩, ⟨⟨"good", 1, 0⟩, []⟩]).errs
           else none)
    ∧ (syncCycle true 2 "data" "230501_1230_" (fun n => n == "good") 0
          [⟨⟨"bad", 1, 0⟩, []⟩, ⟨⟨"good", 1, 0⟩, []⟩]).targets
        = ([⟨⟨"bad", 1, 0⟩, []⟩, ⟨⟨"good", 1, 0⟩, []⟩] : List TargetSt).map (fun t =>
            if shouldSync t.cfg.each 0 && (fun n => n == "good") t.cfg.name then
              { t with files := (compact 2 t.cfg.keep "data"
                  (mockSave t.files ("230501_1230_" ++ "data" ++ BackupFileExt))).1 }
            else t)
    ∧ (syncCycle true 2 "data" "230501_1230_" (fun n => n == "good") 0
          [⟨⟨"bad", 1, 0⟩, []⟩, ⟨⟨"good", 1, 0⟩, []⟩]).iter = 0 + 1) :=
  ⟨by decide,
   sync_partial_failure_aggregation true 2 "data" "230501_1230_" (fun n => n == "good") 0
     [⟨⟨"bad", 1, 0⟩, []⟩, ⟨⟨"good", 1, 0⟩, []⟩] (by decide)⟩

/-- The recomputed want count at the top of an outer Pull pass is never
zero: it is `max(keep - len(names), 1)` when `keep > 1` and 1 otherwise. -/
theorem toPull_ne_zero (keep : Int) (len : Nat) :
    (if keep > 1 then (max (keep - (len : Int)) 1).toNat else 1) ≠ 0 := by
  by_cases h : keep > 1
  · have h2 := le_max_right (keep - (len : Int)) 1
    simp only [h, if_true]
    omega
  · simp [h]

/-- A walk whose downloads all fail attempts every candidate — a failed
download never stops the walk when the local directory is empty. -/
theorem pullWalk_allfail (dlOk : String → Bool) (keep : Int)
    (hfail : ∀ f, dlOk f = false) :
    ∀ (cands : List String) (st : WalkSt),
      pullWalk dlOk keep [] cands st
        = ([], { st with attempts := st.attempts ++ cands }, false) := by
  intro cands
  induction cands with
  | nil => intro st; simp [pullWalk]
  | cons f fs ih =>
    intro st
    simp [pullWalk, hfail, ih, List.append_assoc]

/-- One Pull pass over downloaders that are each either already exhausted
(cache nilled) or short-circuited at their first, newest candidate (local
retention met and no candidate newer than the newest local backup): the pass
attempts no download, leaves the bookkeeping untouched, nils every cache,
and decrements `availableDownloaderLeft` once per downloader. -/
theorem pullPass_allstop (filename : String) (keep : Int) (names : List String)
    (lst : List (PullSource × Option (List String))) (st : WalkSt)
    (hst : ¬ st.toPull = 0)
    (h : ∀ p ∈ lst, p.2 = some ([] : List String) ∨
        (p.2 = none
          ∧ (decide ((names.length : Int) ≥ keep) && !names.isEmpty) = true
          ∧ ∀ f ∈ FilterBackupFileNames p.1.remote filename,
              strLe f (names.getLastD "") = true)) :
    ∀ avail : Int,
      pullPass filename keep names lst st avail
        = (lst.map (fun p => (p.1, some ([] : List String))), st, avail - lst.length) := by
  induction lst with
  | nil => intro avail; simp [pullPass]
  | cons p rest ih =>
    intro avail
    obtain ⟨d, cache⟩ := p
    have hp := h (d, cache) (List.mem_cons_self _ _)
    have hrest := fun q hq => h q (List.mem_cons_of_mem _ hq)
    rcases hp with hc | ⟨hcn, hsc, hall⟩
    · subst hc
      simp only [pullPass, hst, if_false, List.isEmpty_nil, if_true, ih hrest]
      simp [List.length_cons]
      all_goals omega
    · subst hcn
      rcases hrev : (FilterBackupFileNames d.remote filename).reverse with _ | ⟨f, fs⟩
      · simp only [pullPass, hst, if_false, hrev, List.isEmpty_nil, if_true, ih hrest]
        simp [List.length_cons]
        all_goals omega
      · have hf : f ∈ FilterBackupFileNames d.remote filename := by
          rw [← List.mem_reverse, hrev]
          exact List.mem_cons_self _ _
        have hwalk : pullWalk d.dlOk keep names (f :: fs) st = ([], st, true) := by
          rw [pullWalk]
          rw [hsc, hall f hf]
          simp
        simp only [pullPass, hst, if_false, hrev, List.isEmpty_cons, hwalk, ih hrest]
        simp [List.length_cons]
        all_goals omega

/-- The reconciliation loop never touches the Go `errs` slice: download
failures are logged, not recorded, so the error list entering the post-loop
checks is whatever it was before the loop. -/
theorem pullLoop_errs (filename : String) (keep : Int) :
    ∀ (fuel : Nat) (s : PullLoopSt),
      (pullLoop filename keep fuel s).errs = s.errs := by
  intro fuel
  induction fuel with
  | zero => intro s; rfl
  | succ fuel ih =>
    intro s
    simp only [pullLoop]
    by_cases ha : s.avail > 0
    · simp only [ha, if_true]
      by_cases hz :
          (pullPass filename keep (FilterBackupFileNames s.localFiles filename) s.srcs
            { toPull := if keep > 1
                then (max (keep - ((FilterBackupFileNames s.localFiles filename).length : Int))
                  1).toNat
                else 1,
              pulledCnt := s.pulledCnt, localFiles := s.localFiles,
              attempts := s.attempts } s.avail).2.1.toPull = 0 <;>
        simp [hz, ih]
    · simp [ha]

/-- Once every downloader's cache is nilled, further passes of the
reconciliation loop attempt nothing: they only burn
`availableDownloaderLeft` until the loop exits. -/
theorem pullLoop_stuck (filename : String) (keep : Int) :
    ∀ (fuel : Nat) (s : PullLoopSt),
      (∀ p ∈ s.srcs, p.2 = some ([] : List String)) →
      (pullLoop filename keep fuel s).localFiles = s.localFiles
      ∧ (pullLoop filename keep fuel s).pulledCnt = s.pulledCnt
      ∧ (pullLoop filename keep fuel s).attempts = s.attempts := by
  intro fuel
  induction fuel with
  | zero => intro s _; exact ⟨rfl, rfl, rfl⟩
  | succ fuel ih =>
    intro s h
    simp only [pullLoop]
    by_cases ha : s.avail > 0
    · simp only [ha, if_true]
      rw [pullPass_allstop filename keep (FilterBackupFileNames s.localFiles filename)
        s.srcs _ (toPull_ne_zero keep _) (fun p hp => Or.inl (h p hp)) s.avail]
      have hcaches : ∀ p ∈ s.srcs.map
          (fun p : PullSource × Option (List String) => (p.1, some ([] : List String))),
          p.2 = some ([] : List String) := by
        intro p hp
        obtain ⟨q, _, rfl⟩ := List.mem_map.mp hp
        rfl
      by_cases hz : (if keep > 1
          then (max (keep - ((FilterBackupFileNames s.localFiles filename).length : Int))
            1).toNat
          else 1) = 0
      · exact absurd hz (toPull_ne_zero keep _)
      · simp only [hz, if_false]
        exact ih _ hcaches
    · simp [ha]

/-- A full reconciliation loop started with fresh caches does nothing when
the local quota is met and no downloader offers a matching name newer than
the newest local one: the first pass short-circuits every downloader and
later passes are stuck. -/
theorem pullLoop_quota (filename : String) (keep : Int) (srcs : List PullSource)
    (localFiles : List String)
    (hsc : (decide (((FilterBackupFileNames localFiles filename).length : Int) ≥ keep)
        && !(FilterBackupFileNames localFiles filename).isEmpty) = true)
    (hremote : ∀ d ∈ srcs, ∀ f ∈ FilterBackupFileNames d.remote filename,
        strLe f ((FilterBackupFileNames localFiles filename).getLastD "") = true) :
    ∀ (fuel : Nat) (avail : Int),
      (pullLoop filename keep fuel
          { srcs := srcs.map (fun d => (d, none)), localFiles := localFiles,
            pulledCnt := 0, attempts := [], avail := avail,
            errs := [] }).localFiles = localFiles
      ∧ (pullLoop filename keep fuel
          { srcs := srcs.map (fun d => (d, none)), localFiles := localFiles,
            pulledCnt := 0, attempts := [], avail := avail,
            errs := [] }).pulledCnt = 0
      ∧ (pullLoop filename keep fuel
          { srcs := srcs.map (fun d => (d, none)), localFiles := localFiles,
            pulledCnt := 0, attempts := [], avail := avail,
            errs := [] }).attempts = [] := by
  intro fuel avail
  cases fuel with
  | zero => exact ⟨rfl, rfl, rfl⟩
  | succ fuel =>
    simp only [pullLoop]
    by_cases ha : (avail : Int) > 0
    · simp only [ha, if_true]
      have hcond : ∀ p ∈ srcs.map (fun d : PullSource => (d, (none : Option (List String)))),
          p.2 = some ([] : List String) ∨
          (p.2 = none
            ∧ (decide (((FilterBackupFileNames localFiles filename).length : Int) ≥ keep)
                && !(FilterBackupFileNames localFiles filename).isEmpty) = true
            ∧ ∀ f ∈ FilterBackupFileNames p.1.remote filename,
                strLe f ((FilterBackupFileNames localFiles filename).getLastD "") = true) := by
        intro p hp
        obtain ⟨q, hq, rfl⟩ := List.mem_map.mp hp
        exact Or.inr ⟨rfl, hsc, hremote q hq⟩
      rw [pullPass_allstop filename keep (FilterBackupFileNames localFiles filename)
        _ _ (toPull_ne_zero keep _) hcond avail]
      by_cases hz : (if keep > 1
          then (max (keep - ((FilterBackupFileNames localFiles filename).length : Int))
            1).toNat
          else 1) = 0
      · exact absurd hz (toPull_ne_zero keep _)
      · simp only [hz, if_false]
        refine (pullLoop_stuck filename keep fuel _ ?_)
        intro p hp
        obtain ⟨q, _, rfl⟩ := List.mem_map.mp hp
        rfl
    · simp [ha]

/-- C4 (amended): if the local pull directory already holds at least `keep`
matching backups (`keep ≥ 1`) and no downloader's matching remote names are
lexically newer than the newest matching local one, Pull performs zero
downloads (no `Download` call is even attempted: every downloader is
short-circuited at its newest candidate, which is not newer than the NEWEST
kept local name) and the local directory is unchanged.  The comparison is
against the newest local name, not the oldest, and without the
no-newer-remote hypothesis a second consecutive Pull can still download (see
the counterexample). -/
theorem pull_noop_at_quota_without_newer (failFast : Bool) (keep : Int)
    (filename : String) (srcs : List PullSource) (localFiles : List String) (fuel : Nat)
    (hk : 1 ≤ keep)
    (hlocal : keep ≤ ((FilterBackupFileNames localFiles filename).length : Int))
    (hremote : ∀ d ∈ srcs, ∀ f ∈ FilterBackupFileNames d.remote filename,
        strLe f ((FilterBackupFileNames localFiles filename).getLastD "") = true) :
    (Pull failFast keep filename srcs localFiles fuel).attempts = []
    ∧ (Pull failFast keep filename srcs localFiles fuel).pulledCnt = 0
    ∧ (Pull failFast keep filename srcs localFiles fuel).localFiles = localFiles := by
  have hne : (FilterBackupFileNames localFiles filename).isEmpty = false := by
    cases hF : FilterBackupFileNames localFiles filename with
    | nil => rw [hF] at hlocal; simp at hlocal; omega
    | cons x xs => rfl
  have hsc : (decide (((FilterBackupFileNames localFiles filename).length : Int) ≥ keep)
      && !(FilterBackupFileNames localFiles filename).isEmpty) = true := by
    rw [hne]
    simp [hlocal]
  by_cases hs : srcs.isEmpty
  · simp [Pull, hs]
  · have hloop := pullLoop_quota filename keep srcs localFiles hsc hremote fuel
      (srcs.length : Int)
    simp only [Pull, hs, if_false, hloop.2.1, if_true]
    exact ⟨hloop.2.2, rfl, hloop.1⟩

/-- C4 (counterexample to the claim as stated): with `keep = 2` and two
downloaders, a first Pull from an empty local directory satisfies the local
retention from downloader A alone (files 231001 and 231003); a second
consecutive Pull against the unchanged remote state is NOT download-free,
because downloader B's newest candidate 231004 is lexically newer than the
newest local name — Pull downloads it even though local retention is already
satisfied. -/
theorem pull_second_call_still_downloads :
    (((FilterBackupFileNames
        (Pull false 2 "data"
          [⟨"A", ["231001_0000_data.bak", "231003_0000_data.bak"], fun _ => true⟩,
           ⟨"B", ["231002_0000_data.bak", "231004_0000_data.bak"], fun _ => true⟩]
          [] 4).localFiles "data").length : Int) ≥ 2)
    ∧ (Pull false 2 "data"
          [⟨"A", ["231001_0000_data.bak", "231003_0000_data.bak"], fun _ => true⟩,
           ⟨"B", ["231002_0000_data.bak", "231004_0000_data.bak"], fun _ => true⟩]
          (Pull false 2 "data"
            [⟨"A", ["231001_0000_data.bak", "231003_0000_data.bak"], fun _ => true⟩,
             ⟨"B", ["231002_0000_data.bak", "231004_0000_data.bak"], fun _ => true⟩]
            [] 4).localFiles 4).attempts = ["231004_0000_data.bak"]
    ∧ (Pull false 2 "data"
          [⟨"A", ["231001_0000_data.bak", "231003_0000_data.bak"], fun _ => true⟩,
           ⟨"B", ["231002_0000_data.bak", "231004_0000_data.bak"], fun _ => true⟩]
          (Pull false 2 "data"
            [⟨"A", ["231001_0000_data.bak", "231003_0000_data.bak"], fun _ => true⟩,
             ⟨"B", ["231002_0000_data.bak", "231004_0000_data.bak"], fun _ => true⟩]
            [] 4).localFiles 4).pulledCnt = 1 := by decide

/-- C4 witness for the amended theorem: one downloader whose only matching
name is already the newest local backup. -/
theorem pull_noop_at_quota_without_newer_witness :
    ((1 : Int) ≤ 1
      ∧ (1 : Int) ≤ ((FilterBackupFileNames ["230501_1230_data.bak"] "data").length : Int)
      ∧ ∀ d ∈ [(⟨"A", ["230501_1230_data.bak"], fun _ => true⟩ : PullSource)],
          ∀ f ∈ FilterBackupFileNames d.remote "data",
            strLe f ((FilterBackupFileNames ["230501_1230_data.bak"] "data").getLastD "")
              = true)
    ∧ ((Pull false 1 "data" [⟨"A", ["230501_1230_data.bak"], fun _ => true⟩]
          ["230501_1230_data.bak"] 3).attempts = []
    ∧ (Pull false 1 "data" [⟨"A", ["230501_1230_data.bak"], fun _ => true⟩]
          ["230501_1230_data.bak"] 3).pulledCnt = 0
    ∧ (Pull false 1 "data" [⟨"A", ["230501_1230_data.bak"], fun _ => true⟩]
          ["230501_1230_data.bak"] 3).localFiles = ["230501_1230_data.bak"]) :=
  ⟨⟨by decide, by decide, by decide⟩,
   pull_noop_at_quota_without_newer false 1 "data"
     [⟨"A", ["230501_1230_data.bak"], fun _ => true⟩] ["230501_1230_data.bak"] 3
     (by decide) (by decide) (by decide)⟩

/-- One pass over a single downloader whose downloads all fail, from an
empty local directory: every matching candidate is attempted newest-first,
nothing is pulled, and the cache ends empty. -/
theorem pullPass_single_allfail (filename : String) (keep : Int) (d : PullSource)
    (st : WalkSt) (avail : Int) (hst : ¬ st.toPull = 0)
    (hfail : ∀ f, d.dlOk f = false) :
    pullPass filename keep [] [(d, none)] st avail
      = ([(d, some [])],
         { st with attempts := st.attempts ++ (FilterBackupFileNames d.remote filename).reverse },
         if (FilterBackupFileNames d.remote filename).reverse.isEmpty
           then avail - 1 else avail) := by
  cases hrev : (FilterBackupFileNames d.remote filename).reverse with
  | nil =>
    simp only [pullPass, hst, if_false, hrev, List.isEmpty_nil, if_true]
    simp [pullPass]
  | cons f fs =>
    simp only [pullPass, hst, if_false, hrev, List.isEmpty_cons,
      pullWalk_allfail d.dlOk keep hfail]
    simp [pullPass]

/-- The reconciliation loop for a single downloader whose downloads all fail
and an empty local directory: every matching candidate is attempted
newest-first, and nothing is ever pulled. -/
theorem pullLoop_single_allfail (filename : String) (keep : Int) (d : PullSource)
    (hfail : ∀ f, d.dlOk f = false) (avail : Int) (ha : avail > 0) :
    ∀ fuel : Nat,
      (pullLoop filename keep (fuel + 1)
          { srcs := [(d, none)], localFiles := [], pulledCnt := 0, attempts := [],
            avail := avail, errs := [] }).attempts
          = (FilterBackupFileNames d.remote filename).reverse
      ∧ (pullLoop filename keep (fuel + 1)
          { srcs := [(d, none)], localFiles := [], pulledCnt := 0, attempts := [],
            avail := avail, errs := [] }).pulledCnt = 0
      ∧ (pullLoop filename keep (fuel + 1)
          { srcs := [(d, none)], localFiles := [], pulledCnt := 0, attempts := [],
            avail := avail, errs := [] }).localFiles = [] := by
  intro fuel
  simp only [pullLoop, ha, if_true]
  have hN : FilterBackupFileNames ([] : List String) filename = [] := rfl
  rw [hN, pullPass_single_allfail filename keep d _ avail (toPull_ne_zero keep _) hfail]
  by_cases hz : (if keep > 1
      then (max (keep - ((([] : List String)).length : Int)) 1).toNat else 1) = 0
  · exact absurd hz (toPull_ne_zero keep _)
  · simp only [hz, if_false]
    have hstuck := pullLoop_stuck filename keep fuel
      { srcs := [(d, some [])], localFiles := [],
        pulledCnt := 0,
        attempts := [] ++ (FilterBackupFileNames d.remote filename).reverse,
        avail := if (FilterBackupFileNames d.remote filename).reverse.isEmpty
          then avail - 1 else avail,
        errs := [] }
      (by intro p hp; simp at hp; rw [hp])
    refine ⟨?_, ?_, ?_⟩
    · rw [hstuck.2.2]; simp
    · rw [hstuck.2.1]
    · rw [hstuck.1]

/-- C5 (amended): per-file download failures are non-fatal — a downloader
whose downloads all fail still has every matching candidate attempted, in
newest-first order, rather than stopping at the first failure — and when
zero files were pulled in total, Pull returns nil REGARDLESS of fail-fast,
because download errors are never appended to the returned error aggregate
(the loop only logs them; the fail-fast join in the zero-pulled branch can
only ever see an empty error list). -/
theorem pull_zero_pulled_nil_and_failures_nonfatal :
    (∀ (failFast : Bool) (keep : Int) (filename : String) (srcs : List PullSource)
        (localFiles : List String) (fuel : Nat),
        srcs.isEmpty = false →
        (Pull failFast keep filename srcs localFiles fuel).pulledCnt = 0 →
        (Pull failFast keep filename srcs localFiles fuel).result = none)
    ∧ (∀ (failFast : Bool) (keep : Int) (filename : String) (d : PullSource) (fuel : Nat),
        (∀ f, d.dlOk f = false) →
        (Pull failFast keep filename [d] [] (fuel + 1)).attempts
            = (FilterBackupFileNames d.remote filename).reverse
        ∧ (Pull failFast keep filename [d] [] (fuel + 1)).pulledCnt = 0) := by
  constructor
  · intro failFast keep filename srcs localFiles fuel hs hz
    simp only [Pull, hs, Bool.false_eq_true, if_false] at hz ⊢
    have herr := pullLoop_errs filename keep fuel
      { srcs := srcs.map (fun d => (d, none)), localFiles := localFiles,
        pulledCnt := 0, attempts := [], avail := (srcs.length : Int), errs := [] }
    by_cases hp : (pullLoop filename keep fuel
        { srcs := srcs.map (fun d => (d, none)), localFiles := localFiles,
          pulledCnt := 0, attempts := [], avail := (srcs.length : Int),
          errs := [] }).pulledCnt = 0
    · simp [hp, herr]
    · simp only [hp, if_false] at hz
  · intro failFast keep filename d fuel hfail
    have hloop := pullLoop_single_allfail filename keep d hfail
      (([d] : List PullSource).length : Int) (by simp) fuel
    simp only [Pull, List.isEmpty_cons, Bool.false_eq_true, if_false, List.map_cons,
      List.map_nil]
    refine ⟨?_, ?_⟩
    · rw [if_pos hloop.2.1]
      exact hloop.1
    · rw [if_pos hloop.2.1]

/-- C5 (counterexample to the claim as stated): fail-fast is enabled, the
single downloader's two download attempts both fail (two per-file failures
occurred), zero files were pulled — and Pull still returns nil, not a
non-nil joined error, because the loop never records download errors into
the error slice it joins. -/
theorem pull_failfast_all_failed_returns_nil :
    (Pull true 2 "data"
        [⟨"bad", ["231002_0000_data.bak", "231004_0000_data.bak"], fun _ => false⟩]
        [] 4).result = none
    ∧ (Pull true 2 "data"
        [⟨"bad", ["231002_0000_data.bak", "231004_0000_data.bak"], fun _ => false⟩]
        [] 4).attempts = ["231004_0000_data.bak", "231002_0000_data.bak"]
    ∧ (Pull true 2 "data"
        [⟨"bad", ["231002_0000_data.bak", "231004_0000_data.bak"], fun _ => false⟩]
        [] 4).pulledCnt = 0 := by decide

/-- C5 witness for the amended theorem: a fail-fast Pull from one
all-failing downloader. -/
theorem pull_zero_pulled_nil_and_failures_nonfatal_witness :
    (([⟨"bad", ["231002_0000_data.bak"], fun _ => false⟩] : List PullSource).isEmpty = false
      ∧ (Pull true 2 "data" [⟨"bad", ["231002_0000_data.bak"], fun _ => false⟩] [] 4).pulledCnt
          = 0
      ∧ ∀ f, (⟨"bad", ["231002_0000_data.bak"], fun _ => false⟩ : PullSource).dlOk f = false)
    ∧ (Pull true 2 "data" [⟨"bad", ["231002_0000_data.bak"], fun _ => false⟩] [] 4).result
        = none
    ∧ ((Pull true 2 "data" [⟨"bad", ["231002_0000_data.bak"], fun _ => false⟩] [] (3 + 1)).attempts
        = (FilterBackupFileNames
            (⟨"bad", ["231002_0000_data.bak"], fun _ => false⟩ : PullSource).remote
            "data").reverse
      ∧ (Pull true 2 "data" [⟨"bad", ["231002_0000_data.bak"], fun _ => false⟩] [] (3 + 1)).pulledCnt
          = 0) :=
  ⟨⟨by decide, by decide, fun _ => rfl⟩,
   pull_zero_pulled_nil_and_failures_nonfatal.1 true 2 "data"
     [⟨"bad", ["231002_0000_data.bak"], fun _ => false⟩] [] 4 (by decide) (by decide),
   pull_zero_pulled_nil_and_failures_nonfatal.2 true 2 "data"
     ⟨"bad", ["231002_0000_data.bak"], fun _ => false⟩ 3 (fun _ => rfl)⟩

/-- Invariant of the cron run loop: the capacity-1 channel never holds more
than one trigger, the started-job count exceeds the finished-job count by
exactly one while `fn` runs and zero otherwise, and every started job (plus
any pending trigger) is accounted for by a distinct tick — dropped ticks are
never replayed. -/
theorem cron_invariant_step {s t : CronSt} (hstep : CronStep s t)
    (ih : s.pending ≤ 1
      ∧ s.started = s.finished + (if s.running then 1 else 0)
      ∧ s.started + s.pending ≤ s.ticks) :
    t.pending ≤ 1
    ∧ t.started = t.finished + (if t.running then 1 else 0)
    ∧ t.started + t.pending ≤ t.ticks := by
  obtain ⟨h1, h2, h3⟩ := ih
  cases hstep with
  | tick =>
    by_cases hp : s.pending = 0 <;>
      refine ⟨?_, ?_, ?_⟩ <;> simp [hp] <;> omega
  | start hp hrun =>
    rw [hrun] at h2
    simp at h2
    refine ⟨?_, ?_, ?_⟩ <;> (try simp) <;> omega
  | finish hrun =>
    rw [hrun] at h2
    simp at h2
    refine ⟨?_, ?_, ?_⟩ <;> (try simp) <;> omega

/-- Invariant of the cron run loop, established by induction over
reachability. -/
theorem cron_invariant (s : CronSt) (h : CronReachable s) :
    s.pending ≤ 1
    ∧ s.started = s.finished + (if s.running then 1 else 0)
    ∧ s.started + s.pending ≤ s.ticks := by
  induction h with
  | init => exact ⟨by decide, by decide, by decide⟩
  | step hr hstep ih => exact cron_invariant_step hstep ih

/-- Processing a concatenation of event traces composes the loop replays. -/
theorem traceRun_append (xs : List IEv) :
    ∀ (b : Bool) (ys : List IEv),
      traceRun b (xs ++ ys) = (traceRun b xs).bind (fun m => traceRun m ys) := by
  induction xs with
  | nil => intro b ys; simp [traceRun]
  | cons e r ih =>
    intro b ys
    cases b <;> cases e <;> simp [traceRun, ih]

/-- The interval-cadence trace is a legal replay of the sequential loop,
ending between jobs. -/
theorem traceRun_interval (n : Nat) :
    traceRun false (runIntervalTrace n) = some false := by
  induction n with
  | zero => rfl
  | succ n ih => simp [runIntervalTrace, traceRun_append, ih, traceRun]

/-- A legal replay from state `b` to state `m` balances starts and finishes
up to the in-flight jobs at either end. -/
theorem traceRun_counts (p : List IEv) :
    ∀ (b m : Bool), traceRun b p = some m →
      p.count IEv.start + (if b then 1 else 0)
        = p.count IEv.finish + (if m then 1 else 0) := by
  induction p with
  | nil =>
    intro b m h
    simp only [traceRun, Option.some.injEq] at h
    subst h
    rfl
  | cons e r ih =>
    intro b m h
    cases b with
    | false =>
      cases e with
      | rearm =>
        have hc := ih false m h
        simp [List.count_cons] at hc ⊢
        omega
      | start =>
        have hc := ih true m h
        simp [List.count_cons] at hc ⊢
        omega
      | finish => exact Option.noConfusion h
    | true =>
      cases e with
      | rearm => exact Option.noConfusion h
      | start => exact Option.noConfusion h
      | finish =>
        have hc := ih false m h
        simp [List.count_cons] at hc ⊢
        omega

/-- C7: the scheduler never has two executions of `fn` in flight.  For the
cron cadence, every reachable state of the tick/receive/finish interleaving
has at most one pending trigger in the capacity-1 channel, at most one job
in flight, and no more starts-plus-pending than ticks — a dropped tick is
never replayed.  For the duration cadence the loop is a single sequential
goroutine: along every prefix of its trace at most one job is in flight,
and a (re)arming of the timer happens only at points where the previously
started jobs have all returned. -/
theorem scheduler_no_overlap_and_coalescing :
    (∀ s : CronSt, CronReachable s →
      s.pending ≤ 1
      ∧ s.finished ≤ s.started
      ∧ s.started ≤ s.finished + 1
      ∧ s.started + s.pending ≤ s.ticks)
    ∧ (∀ (n : Nat) (p q : List IEv), runIntervalTrace n = p ++ q →
        p.count IEv.finish ≤ p.count IEv.start
        ∧ p.count IEv.start ≤ p.count IEv.finish + 1
        ∧ (∀ q', q = IEv.rearm :: q' → p.count IEv.start = p.count IEv.finish)) := by
  constructor
  · intro s h
    obtain ⟨h1, h2, h3⟩ := cron_invariant s h
    by_cases hr : s.running <;> simp [hr] at h2 <;> omega
  · intro n p q heq
    have h := traceRun_interval n
    rw [heq, traceRun_append] at h
    cases hsplit : traceRun false p with
    | none => rw [hsplit] at h; simp at h
    | some m =>
      rw [hsplit] at h
      simp only [Option.some_bind] at h
      have hcount := traceRun_counts p false m hsplit
      refine ⟨?_, ?_, ?_⟩
      · cases m <;> simp at hcount <;> omega
      · cases m <;> simp at hcount <;> omega
      · intro q' hq
        subst hq
        cases m with
        | true => simp [traceRun] at h
        | false => simp at hcount; omega

/-- C7 witness: the state after a single tick (trigger pending, nothing in
flight), and the split of the one-firing interval trace at its rearm. -/
theorem scheduler_no_overlap_and_coalescing_witness :
    ((⟨1, false, 1, 0, 0⟩ : CronSt).pending ≤ 1
      ∧ (⟨1, false, 1, 0, 0⟩ : CronSt).finished ≤ (⟨1, false, 1, 0, 0⟩ : CronSt).started
      ∧ (⟨1, false, 1, 0, 0⟩ : CronSt).started ≤ (⟨1, false, 1, 0, 0⟩ : CronSt).finished + 1
      ∧ (⟨1, false, 1, 0, 0⟩ : CronSt).started + (⟨1, false, 1, 0, 0⟩ : CronSt).pending
          ≤ (⟨1, false, 1, 0, 0⟩ : CronSt).ticks)
    ∧ (([IEv.rearm, IEv.start, IEv.finish] : List IEv).count IEv.finish
          ≤ ([IEv.rearm, IEv.start, IEv.finish] : List IEv).count IEv.start
      ∧ ([IEv.rearm, IEv.start, IEv.finish] : List IEv).count IEv.start
          ≤ ([IEv.rearm, IEv.start, IEv.finish] : List IEv).count IEv.finish + 1
      ∧ (∀ q', [IEv.rearm, IEv.start, IEv.finish] = IEv.rearm :: q' →
          ([IEv.rearm, IEv.start, IEv.finish] : List IEv).count IEv.start
            = ([IEv.rearm, IEv.start, IEv.finish] : List IEv).count IEv.finish)) :=
  ⟨scheduler_no_overlap_and_coalescing.1 ⟨1, false, 1, 0, 0⟩
      (CronReachable.step CronReachable.init (CronStep.tick CronSt.init)),
   scheduler_no_overlap_and_coalescing.2 1 [IEv.rearm, IEv.start, IEv.finish]
      [IEv.rearm, IEv.start, IEv.finish] rfl⟩

/-- C2 witness: two targets (`each = 2` and `each = 1`, all saves succeed)
over three cycles. -/
theorem each_policy_gives_ceil_syncs_witness :
    ((1 : Nat) ≤ 2
      ∧ (∀ c, c < 3 →
          cycleSuccessAt false 2 "data" (fun _ => "230501_1230_") (fun _ _ => true)
            [⟨⟨"t", 2, 0⟩, []⟩, ⟨⟨"b", 1, 0⟩, []⟩] c = true))
    ∧ ((∀ c, c ≤ 3 →
        (runSyncFrom false 2 "data" (fun _ => "230501_1230_") (fun _ _ => true)
          [⟨⟨"t", 2, 0⟩, []⟩, ⟨⟨"b", 1, 0⟩, []⟩] c).1 = (c : Int))
    ∧ (∀ (stamp : String) (ok : String → Bool) (iter : Int) (ts : List TargetSt),
        (syncCycle false 2 "data" stamp ok iter ts).iter
          = if ts.any (fun t => shouldSync t.cfg.each iter && ok t.cfg.name)
            then iter + 1 else iter)
    ∧ (∀ (ok : String → Bool) (iter : Int) (dest : String) (t : TargetSt),
        t.cfg.each = ((2 : Nat) : Int) → ok t.cfg.name = true →
        ((syncAttempt ok iter dest t).2 = SyncOutcome.saved ↔ iter % ((2 : Nat) : Int) = 0))
    ∧ ((List.range 3).filter (fun c : Nat => shouldSync ((2 : Nat) : Int) (c : Int))).length
        = (3 + 2 - 1) / 2
    ∧ shouldSync ((2 : Nat) : Int) ((0 : Nat) : Int) = true) :=
  ⟨⟨by decide, by decide⟩,
   each_policy_gives_ceil_syncs false 2 "data" (fun _ => "230501_1230_") (fun _ _ => true)
     [⟨⟨"t", 2, 0⟩, []⟩, ⟨⟨"b", 1, 0⟩, []⟩] 3 2 (by decide) (by decide)⟩

end Sin
